import Mathlib

/-!
# Polling directory watcher (`homework/watcher/watcher.go`)

A shallow embedding of `Watcher.WatchDir` and the two closures it builds
(`watcherImpl`, `flushMaps`).

`WatchDir` talks to the operating system (`os.Stat`, `filepath.WalkDir`), to a
context, to a ticker and to a channel.  Everything the function *observes* is
collected in an explicit environment `Env`:

* the result of the first `os.Stat`,
* the sequence of callback invocations each `filepath.WalkDir` performs, each
  one together with the value `ctx.Err()` has at that moment,
* for every loop iteration the result of `os.Stat`, which `select` case fired
  and the order in which the two `range` loops enumerate their map.

Everything the function *does* is collected in a `Run`: the returned error (if
the function returned), the events sent on `w.Events` in order, the two maps,
and two counters (calls of `filepath.WalkDir`, loop iterations started).

A finite `Env` describes a finite piece of an execution.  When the listed
iterations are used up and the function has not returned, it is blocked in
`select`; then `Run.ret = none`.

Modelling decisions:

* `map[string]struct{}` is a duplicate-free list of keys; `m[k] = struct{}{}`
  is `List.insert`.
* The iteration order of `range` over a map is unspecified in Go.  The
  environment supplies it as a `RangeOrder`: a function that permutes the keys.
* A channel send appends to `Run.events`; blocking of the send is not modelled.
* `filepath.WalkDir` belongs to the standard library.  It is represented by its
  documented behaviour towards the callback: it calls the callback once per
  entry and returns the first non-nil error the callback returns (the callback
  here never returns `filepath.SkipDir` / `filepath.SkipAll`).
-/

namespace Watcher

/-! ## Data model -/

/-- The two constants of `type EventType string`. -/
inductive EventType where
  | EventTypeFileCreate
  | EventTypeFileRemoved
  deriving DecidableEq, Repr

/-- The string value of an `EventType` constant. -/
def EventType.value : EventType → String
  | .EventTypeFileCreate => "file_created"
  | .EventTypeFileRemoved => "file_removed"

/-- Struct `Event`: field `Typ` is Go's `Type`, field `Path` is Go's `Path`. -/
structure Event where
  Typ : EventType
  Path : String
  deriving DecidableEq, Repr

/-- Error values that can reach `WatchDir`.

* `ErrDirNotExist` is the package variable `errors.New("dir does not exist")`;
* `notExist` is any error `err` with `errors.Is(err, os.ErrNotExist)`, such as
  the `*fs.PathError` that `os.Stat` / `os.Lstat` give for a missing path;
* `canceled`, `deadlineExceeded` are the two values of `ctx.Err()`;
* `other` is any other error (permission denied, I/O error, ...). -/
inductive GoError where
  | ErrDirNotExist
  | notExist
  | canceled
  | deadlineExceeded
  | other (msg : String)
  deriving DecidableEq, Repr

/-- The test `errors.Is(err, os.ErrNotExist)` on a possibly-nil error. -/
def isErrNotExist : Option GoError → Bool
  | some .notExist => true
  | _ => false

/-- One invocation of the walk callback, as `filepath.WalkDir` performs it:
the three arguments (`filetype` only through `filetype.IsDir()`), and the value
of `ctx.Err()` at the time of the invocation. -/
structure WalkEntry where
  curPath : String
  isDir : Bool
  fileReadErr : Option GoError
  ctxErr : Option GoError
  deriving DecidableEq, Repr

/-- The order in which one `for curPath := range m` visits the keys of `m`. -/
structure RangeOrder where
  order : List String → List String
  perm : ∀ keys, (order keys).Perm keys

/-- The case of the `select` statement that fires in one loop iteration.
`tick` carries what the iteration then observes: the walk and the orders of
the two `range` loops (first over `watchedFiles`, then over
`oldWatchedFiles`). -/
inductive SelectCase where
  | ctxDone
  | tick (walk : List WalkEntry) (rangeWatched rangeOld : RangeOrder)

/-- What one loop iteration observes. -/
structure Cycle where
  stat : Option GoError
  sel : SelectCase

/-- What a call of `WatchDir` observes. -/
structure Env where
  stat0 : Option GoError
  walk0 : List WalkEntry
  cycles : List Cycle

/-- The two local maps of `WatchDir`. -/
structure State where
  oldWatchedFiles : List String
  watchedFiles : List String
  deriving DecidableEq, Repr

/-- What a call of `WatchDir` does.  `ret = none`: not returned (blocked in
`select`); `ret = some none`: returned `nil`; `ret = some (some e)`: returned
`e`. -/
structure Run where
  ret : Option (Option GoError)
  events : List Event
  st : State
  walks : Nat
  iters : Nat

/-! ## The code -/

/-- The closure `watcherImpl`, with the captured map `watchedFiles` passed in
and out. -/
def watcherImpl (watchedFiles : List String) (e : WalkEntry) :
    List String × Option GoError :=
  match e.fileReadErr with
  | some fileReadErr => (watchedFiles, some fileReadErr)
  | none =>
    match e.ctxErr with
    | some err => (watchedFiles, some err)
    | none =>
      if e.isDir then (watchedFiles, none)
      else (watchedFiles.insert e.curPath, none)

/-- The closure `flushMaps`. -/
def flushMaps (s : State) : State :=
  { oldWatchedFiles := s.watchedFiles, watchedFiles := [] }

/-- Call `filepath.WalkDir(path, watcherImpl)` on a tree whose traversal
consists of the given callback invocations: the callback runs entry by entry
and the first non-nil error ends the walk and is its result. -/
def WalkDir : List String → List WalkEntry → List String × Option GoError
  | watchedFiles, [] => (watchedFiles, none)
  | watchedFiles, e :: es =>
    match watcherImpl watchedFiles e with
    | (w, some err) => (w, some err)
    | (w, none) => WalkDir w es

/-- The first `range` loop of an iteration: one `file_created` event for every
key of `watchedFiles` that is not a key of `oldWatchedFiles`. -/
def createdEvents (r : RangeOrder) (s : State) : List Event :=
  ((r.order s.watchedFiles).filter (fun curPath => decide (curPath ∉ s.oldWatchedFiles))).map
    (fun curPath => { Typ := .EventTypeFileCreate, Path := curPath })

/-- The second `range` loop of an iteration: one `file_removed` event for every
key of `oldWatchedFiles` that is not a key of `watchedFiles`. -/
def removedEvents (r : RangeOrder) (s : State) : List Event :=
  ((r.order s.oldWatchedFiles).filter (fun curPath => decide (curPath ∉ s.watchedFiles))).map
    (fun curPath => { Typ := .EventTypeFileRemoved, Path := curPath })

/-- Result of one pass through the body of the `for` loop. -/
inductive StepResult where
  | ret (err : Option GoError) (st : State) (walks : Nat)
  | next (events : List Event) (st : State)

/-- One pass through the body of the `for` loop. -/
def loopBody (s : State) (c : Cycle) : StepResult :=
  if isErrNotExist c.stat then .ret none s 0
  else
    match c.sel with
    | .ctxDone => .ret none s 0
    | .tick walk rangeWatched rangeOld =>
      match WalkDir s.watchedFiles walk with
      | (w, some err) => .ret (some err) { s with watchedFiles := w } 1
      | (w, none) =>
        let s1 : State := { s with watchedFiles := w }
        .next (createdEvents rangeWatched s1 ++ removedEvents rangeOld s1) (flushMaps s1)

/-- The `for` loop, run on the listed iterations. -/
def loop : State → List Cycle → Run
  | s, [] => { ret := none, events := [], st := s, walks := 0, iters := 0 }
  | s, c :: cs =>
    match loopBody s c with
    | .ret err st w => { ret := some err, events := [], st := st, walks := w, iters := 1 }
    | .next evs st =>
      let r := loop st cs
      { ret := r.ret, events := evs ++ r.events, st := r.st,
        walks := r.walks + 1, iters := r.iters + 1 }

/-- The method `(*Watcher).WatchDir`. -/
def WatchDir (env : Env) : Run :=
  if isErrNotExist env.stat0 then
    { ret := some (some .ErrDirNotExist), events := [], st := ⟨[], []⟩, walks := 0, iters := 0 }
  else
    match WalkDir [] env.walk0 with
    | (w, some err) =>
      { ret := some (some err), events := [], st := ⟨[], w⟩, walks := 1, iters := 0 }
    | (w, none) =>
      let r := loop (flushMaps ⟨[], w⟩) env.cycles
      { ret := r.ret, events := r.events, st := r.st, walks := r.walks + 1, iters := r.iters }

/-! ## Vocabulary of the specification -/

/-- The paths a walk yields as non-directory entries. -/
def nonDirPaths (walk : List WalkEntry) : List String :=
  (walk.filter (fun e => !e.isDir)).map (fun e => e.curPath)

/-- The walk performed in an iteration (none when `ctx.Done()` fired). -/
def Cycle.walk (c : Cycle) : List WalkEntry :=
  match c.sel with
  | .ctxDone => []
  | .tick walk _ _ => walk

/-- The most recent walk before the iteration that follows `cs`: the walk of
the last iteration of `cs`, or the initial walk when `cs` is empty. -/
def lastWalk (walk0 : List WalkEntry) (cs : List Cycle) : List WalkEntry :=
  match cs.getLast? with
  | none => walk0
  | some c => c.walk

/-- Range order that visits the keys in the stored order. -/
def RangeOrder.stored : RangeOrder :=
  { order := fun keys => keys, perm := fun keys => List.Perm.refl keys }

/-- Range order that visits the keys in reverse stored order. -/
def RangeOrder.reversed : RangeOrder :=
  { order := fun keys => keys.reverse, perm := fun keys => List.reverse_perm keys }

/-- A regular file seen without error and without cancellation. -/
def file (p : String) : WalkEntry :=
  { curPath := p, isDir := false, fileReadErr := none, ctxErr := none }

/-- A directory seen without error and without cancellation. -/
def dir (p : String) : WalkEntry :=
  { curPath := p, isDir := true, fileReadErr := none, ctxErr := none }

/-- An iteration in which `os.Stat` succeeds and the ticker fires. -/
def tickCycle (walk : List WalkEntry) : Cycle :=
  { stat := none, sel := .tick walk RangeOrder.stored RangeOrder.reversed }

/-- A walk in which no callback invocation carries a read error and none
observes a cancelled context. -/
def cleanWalk (walk : List WalkEntry) : Prop :=
  ∀ e ∈ walk, e.fileReadErr = none ∧ e.ctxErr = none

instance (walk : List WalkEntry) : Decidable (cleanWalk walk) :=
  inferInstanceAs (Decidable (∀ e ∈ walk, e.fileReadErr = none ∧ e.ctxErr = none))

/-- Two walks yield the same set of non-directory paths. -/
def sameFiles (w1 w2 : List WalkEntry) : Prop :=
  ∀ p, p ∈ nonDirPaths w1 ↔ p ∈ nonDirPaths w2

instance (w1 w2 : List WalkEntry) : Decidable (sameFiles w1 w2) :=
  decidable_of_iff
    ((∀ p ∈ nonDirPaths w1, p ∈ nonDirPaths w2) ∧ (∀ p ∈ nonDirPaths w2, p ∈ nonDirPaths w1))
    ⟨fun h p => ⟨h.1 p, h.2 p⟩, fun h => ⟨fun p => (h p).1, fun p => (h p).2⟩⟩

/-- The snapshot invariant at the top of a loop iteration, relative to the most
recent completed walk. -/
def Snapshot (s : State) (walk : List WalkEntry) : Prop :=
  s.watchedFiles = [] ∧ s.oldWatchedFiles.Nodup ∧
    ∀ p, p ∈ s.oldWatchedFiles ↔ p ∈ nonDirPaths walk

/-! ## Concrete trees used in the examples -/

/-- Tree `root/` holding `a.txt`. -/
def walkA : List WalkEntry := [dir "root", file "root/a.txt"]

/-- Tree `root/` holding `a.txt` and `b.txt`. -/
def walkAB : List WalkEntry := [dir "root", file "root/a.txt", file "root/b.txt"]

/-- Tree `root/` holding `b.txt`. -/
def walkB : List WalkEntry := [dir "root", file "root/b.txt"]

/-- Walk of a root that `os.Lstat` cannot find: `filepath.WalkDir` calls the
callback once, with the error. -/
def walkMissingRoot : List WalkEntry :=
  [{ curPath := "root", isDir := false, fileReadErr := some .notExist, ctxErr := none }]

/-- Walk of `root/` with `a.txt` and `b.txt` during which the context is
cancelled after `a.txt` was visited. -/
def walkCancelled : List WalkEntry :=
  [dir "root", file "root/a.txt",
    { curPath := "root/b.txt", isDir := false, fileReadErr := none, ctxErr := some .canceled }]

/-- Walk of `root/` with `b.txt`, an unreadable directory `sub` (reported by a
second callback invocation carrying the `ReadDir` error) and `z.txt`. -/
def walkUnreadable : List WalkEntry :=
  [dir "root", file "root/b.txt", dir "root/sub",
    { curPath := "root/sub", isDir := true, fileReadErr := some (.other "permission denied"),
      ctxErr := none },
    file "root/z.txt"]

/-- An iteration in which `os.Stat` succeeds and `ctx.Done()` fires. -/
def doneCycle : Cycle := { stat := none, sel := .ctxDone }

/-- Tree `root/` holding `b.txt` and `a.txt`, enumerated with `b.txt` first. -/
def walkBA : List WalkEntry := [dir "root", file "root/b.txt", file "root/a.txt"]

/-! ## Lemmas on the walk -/

theorem nonDirPaths_cons (e : WalkEntry) (es : List WalkEntry) :
    nonDirPaths (e :: es) = if e.isDir then nonDirPaths es else e.curPath :: nonDirPaths es := by
  cases h : e.isDir <;> simp [nonDirPaths, List.filter_cons, h]

theorem watcherImpl_ok {w w1 : List String} {e : WalkEntry}
    (h : watcherImpl w e = (w1, none)) :
    e.fileReadErr = none ∧ e.ctxErr = none ∧
      w1 = if e.isDir then w else w.insert e.curPath := by
  unfold watcherImpl at h
  cases hf : e.fileReadErr with
  | some x => simp [hf] at h
  | none =>
    cases hc : e.ctxErr with
    | some x => simp [hf, hc] at h
    | none =>
      cases hd : e.isDir with
      | true =>
        simp only [hf, hc, hd, if_true, Prod.mk.injEq, and_true] at h
        simp [h]
      | false =>
        simp only [hf, hc, hd, Bool.false_eq_true, if_false, Prod.mk.injEq, and_true] at h
        simp [h]

theorem watcherImpl_clean (w : List String) (e : WalkEntry)
    (hf : e.fileReadErr = none) (hc : e.ctxErr = none) :
    watcherImpl w e = (if e.isDir then w else w.insert e.curPath, none) := by
  unfold watcherImpl
  cases hd : e.isDir <;> simp [hf, hc, hd]

theorem WalkDir_cons_clean (w : List String) (e : WalkEntry) (es : List WalkEntry)
    (hf : e.fileReadErr = none) (hc : e.ctxErr = none) :
    WalkDir w (e :: es) = WalkDir (if e.isDir then w else w.insert e.curPath) es := by
  simp [WalkDir, watcherImpl_clean w e hf hc]

/-- A walk that ends without error has collected exactly the non-directory
paths it yielded, on top of what the map held before. -/
theorem WalkDir_mem {walk : List WalkEntry} {w w1 : List String}
    (h : WalkDir w walk = (w1, none)) (p : String) :
    p ∈ w1 ↔ p ∈ w ∨ p ∈ nonDirPaths walk := by
  induction walk generalizing w with
  | nil =>
    simp only [WalkDir, Prod.mk.injEq, and_true] at h
    simp [h, nonDirPaths]
  | cons e es ih =>
    unfold WalkDir at h
    cases hw : watcherImpl w e with
    | mk w2 r =>
      cases r with
      | some err => simp [hw] at h
      | none =>
        simp only [hw] at h
        obtain ⟨_, _, hw2⟩ := watcherImpl_ok hw
        rw [ih h, hw2, nonDirPaths_cons]
        cases hd : e.isDir
        · simp only [Bool.false_eq_true, if_false, List.mem_insert_iff, List.mem_cons]
          tauto
        · simp

/-- A walk keeps the map duplicate-free, whatever its result. -/
theorem WalkDir_nodup {walk : List WalkEntry} {w : List String} (hw : w.Nodup) :
    (WalkDir w walk).1.Nodup := by
  induction walk generalizing w with
  | nil => simpa [WalkDir] using hw
  | cons e es ih =>
    unfold WalkDir
    cases hi : watcherImpl w e with
    | mk w2 r =>
      have hw2 : w2.Nodup := by
        unfold watcherImpl at hi
        cases hf : e.fileReadErr with
        | some x =>
          simp only [hf, Prod.mk.injEq] at hi
          exact hi.1 ▸ hw
        | none =>
          cases hc : e.ctxErr with
          | some x =>
            simp only [hf, hc, Prod.mk.injEq] at hi
            exact hi.1 ▸ hw
          | none =>
            cases hd : e.isDir with
            | true =>
              simp only [hf, hc, hd, if_true, Prod.mk.injEq] at hi
              exact hi.1 ▸ hw
            | false =>
              simp only [hf, hc, hd, Bool.false_eq_true, if_false, Prod.mk.injEq] at hi
              exact hi.1 ▸ hw.insert
      cases r with
      | some err => simpa using hw2
      | none => simpa using ih hw2

/-- A clean walk ends without error. -/
theorem WalkDir_clean {walk : List WalkEntry} (w : List String) (h : cleanWalk walk) :
    (WalkDir w walk).2 = none := by
  induction walk generalizing w with
  | nil => simp [WalkDir]
  | cons e es ih =>
    have he := h e (List.mem_cons_self e es)
    rw [WalkDir_cons_clean w e es he.1 he.2]
    exact ih _ (fun x hx => h x (List.mem_cons_of_mem e hx))

/-- A walk whose first failing callback invocation is `e` stops there: the
result is the result of the callback on `e`, and nothing after `e` matters. -/
theorem WalkDir_stop (w : List String) (pre post : List WalkEntry) (e : WalkEntry)
    (err : GoError) (hpre : cleanWalk pre)
    (he : (watcherImpl (WalkDir w pre).1 e).2 = some err) :
    WalkDir w (pre ++ e :: post) = ((WalkDir w pre).1, some err) := by
  induction pre generalizing w with
  | nil =>
    simp only [WalkDir, List.nil_append] at he ⊢
    cases hi : watcherImpl w e with
    | mk w2 r =>
      rw [hi] at he
      simp only at he
      subst he
      have hw2 : w2 = w := by
        unfold watcherImpl at hi
        cases hf : e.fileReadErr with
        | some x => simp only [hf, Prod.mk.injEq] at hi; exact hi.1.symm
        | none =>
          cases hc : e.ctxErr with
          | some x => simp only [hf, hc, Prod.mk.injEq] at hi; exact hi.1.symm
          | none =>
            cases hd : e.isDir <;> simp [hf, hc, hd] at hi
      simp [hw2]
  | cons a as ih =>
    have ha := hpre a (List.mem_cons_self a as)
    have has : cleanWalk as := fun x hx => hpre x (List.mem_cons_of_mem a hx)
    rw [List.cons_append, WalkDir_cons_clean w a _ ha.1 ha.2,
      WalkDir_cons_clean w a as ha.1 ha.2]
    rw [WalkDir_cons_clean w a as ha.1 ha.2] at he
    exact ih _ has he

/-! ## Lemmas on the loop -/

theorem loop_cons (s : State) (c : Cycle) (cs : List Cycle) :
    loop s (c :: cs) =
      match loopBody s c with
      | .ret err st w => { ret := some err, events := [], st := st, walks := w, iters := 1 }
      | .next evs st =>
        { ret := (loop st cs).ret, events := evs ++ (loop st cs).events, st := (loop st cs).st,
          walks := (loop st cs).walks + 1, iters := (loop st cs).iters + 1 } := rfl

theorem lastWalk_nil (walk0 : List WalkEntry) : lastWalk walk0 [] = walk0 := rfl

theorem lastWalk_cons (walk0 : List WalkEntry) (c : Cycle) (cs : List Cycle) :
    lastWalk walk0 (c :: cs) = lastWalk c.walk cs := by
  cases cs with
  | nil => simp [lastWalk]
  | cons d ds =>
    cases h : (d :: ds).getLast? with
    | none => simp at h
    | some x => simp [lastWalk, List.getLast?_cons_cons, h]

theorem lastWalk_snoc (walk0 : List WalkEntry) (cs : List Cycle) (c : Cycle) :
    lastWalk walk0 (cs ++ [c]) = c.walk := by
  simp [lastWalk]

/-- An iteration that completes was a tick whose walk ended without error; its
events are the two range loops on the maps after the walk, and the maps are
rotated afterwards. -/
theorem loopBody_next {s : State} {c : Cycle} {evs : List Event} {st : State}
    (h : loopBody s c = .next evs st) :
    ∃ walk r1 r2 w, isErrNotExist c.stat = false ∧ c.sel = .tick walk r1 r2 ∧
      WalkDir s.watchedFiles walk = (w, none) ∧
      evs = createdEvents r1 ⟨s.oldWatchedFiles, w⟩ ++ removedEvents r2 ⟨s.oldWatchedFiles, w⟩ ∧
      st = flushMaps ⟨s.oldWatchedFiles, w⟩ := by
  unfold loopBody at h
  cases hs : isErrNotExist c.stat with
  | true => simp [hs] at h
  | false =>
    simp only [hs, Bool.false_eq_true, if_false] at h
    cases hsel : c.sel with
    | ctxDone => simp [hsel] at h
    | tick walk r1 r2 =>
      simp only [hsel] at h
      cases hw : WalkDir s.watchedFiles walk with
      | mk w r =>
        cases r with
        | some err => simp [hw] at h
        | none =>
          simp only [hw, StepResult.next.injEq] at h
          exact ⟨walk, r1, r2, w, rfl, rfl, hw, h.1.symm, h.2.symm⟩

/-- The loop is still running after `c :: cs` exactly when `c` completes and
the loop is still running after `cs` from the rotated maps. -/
theorem loop_cons_running {s : State} {c : Cycle} {cs : List Cycle}
    (h : (loop s (c :: cs)).ret = none) :
    ∃ evs st, loopBody s c = .next evs st ∧ (loop st cs).ret = none ∧
      (loop s (c :: cs)).events = evs ++ (loop st cs).events ∧
      (loop s (c :: cs)).st = (loop st cs).st := by
  rw [loop_cons] at h ⊢
  cases hb : loopBody s c with
  | ret err st w => simp [hb] at h
  | next evs st =>
    simp only [hb] at h ⊢
    exact ⟨evs, st, rfl, h, rfl, rfl⟩

theorem loop_cons_next {s : State} {c : Cycle} {evs : List Event} {st : State}
    (cs : List Cycle) (hb : loopBody s c = .next evs st) :
    (loop s (c :: cs)).ret = (loop st cs).ret ∧
      (loop s (c :: cs)).events = evs ++ (loop st cs).events ∧
      (loop s (c :: cs)).st = (loop st cs).st := by
  simp [loop_cons, hb]

/-- Iterations listed after the loop has returned are never run. -/
theorem loop_append_returned (s : State) (cs more : List Cycle)
    (h : (loop s cs).ret ≠ none) : loop s (cs ++ more) = loop s cs := by
  induction cs generalizing s with
  | nil => simp [loop] at h
  | cons c cs ih =>
    simp only [List.cons_append]
    rw [loop_cons] at h
    rw [loop_cons, loop_cons]
    cases hb : loopBody s c with
    | ret err st w => rfl
    | next evs st =>
      simp only [hb] at h ⊢
      rw [ih st h]

/-- While the loop is running, more iterations continue from its maps. -/
theorem loop_append_running (s : State) (cs more : List Cycle)
    (h : (loop s cs).ret = none) :
    (loop s (cs ++ more)).ret = (loop (loop s cs).st more).ret ∧
      (loop s (cs ++ more)).events = (loop s cs).events ++ (loop (loop s cs).st more).events ∧
      (loop s (cs ++ more)).st = (loop (loop s cs).st more).st := by
  induction cs generalizing s with
  | nil => simp [loop]
  | cons c cs ih =>
    obtain ⟨evs, st, hb, hr, he, hst⟩ := loop_cons_running h
    obtain ⟨i1, i2, i3⟩ := ih st hr
    obtain ⟨a1, a2, a3⟩ := loop_cons_next (cs ++ more) hb
    simp only [List.cons_append]
    rw [a1, a2, a3, i1, i2, i3, he, hst, List.append_assoc]
    exact ⟨rfl, rfl, rfl⟩

/-- If the loop is running after `cs ++ more`, it was running after `cs`. -/
theorem loop_running_left (s : State) (cs more : List Cycle)
    (h : (loop s (cs ++ more)).ret = none) : (loop s cs).ret = none := by
  by_contra hne
  rw [loop_append_returned s cs more hne] at h
  exact hne h

/-- A completed iteration re-establishes the snapshot invariant for its walk. -/
theorem loopBody_snapshot {s : State} {c : Cycle} {evs : List Event} {st : State}
    {prev : List WalkEntry} (hs : Snapshot s prev) (h : loopBody s c = .next evs st) :
    Snapshot st c.walk := by
  obtain ⟨walk, r1, r2, w, _, hsel, hw, _, hst⟩ := loopBody_next h
  obtain ⟨h0, _, _⟩ := hs
  rw [h0] at hw
  have hnd : w.Nodup := by
    have := @WalkDir_nodup walk [] List.nodup_nil
    rwa [hw] at this
  refine ⟨by simp [hst, flushMaps], by simpa [hst, flushMaps] using hnd, fun p => ?_⟩
  have := WalkDir_mem hw p
  simpa [hst, flushMaps, Cycle.walk, hsel] using this

/-- The snapshot invariant holds whenever the loop is at the top of an
iteration. -/
theorem loop_snapshot {s : State} {prev : List WalkEntry} (cs : List Cycle)
    (hs : Snapshot s prev) (h : (loop s cs).ret = none) :
    Snapshot (loop s cs).st (lastWalk prev cs) := by
  induction cs generalizing s prev with
  | nil => simpa [loop, lastWalk] using hs
  | cons c cs ih =>
    obtain ⟨evs, st, hb, hr, _, hst⟩ := loop_cons_running h
    rw [hst, lastWalk_cons]
    exact ih (loopBody_snapshot hs hb) hr

/-- `WatchDir` is still running only if the root existed, the initial walk
ended without error, and the loop is still running; its events and maps are
those of the loop. -/
theorem WatchDir_running {stat0 : Option GoError} {walk0 : List WalkEntry}
    {cs : List Cycle} (h : (WatchDir ⟨stat0, walk0, cs⟩).ret = none) :
    ∃ w, isErrNotExist stat0 = false ∧ WalkDir [] walk0 = (w, none) ∧
      Snapshot (flushMaps ⟨[], w⟩) walk0 ∧
      (loop (flushMaps ⟨[], w⟩) cs).ret = none ∧
      (∀ ds, (WatchDir ⟨stat0, walk0, ds⟩).ret = (loop (flushMaps ⟨[], w⟩) ds).ret ∧
        (WatchDir ⟨stat0, walk0, ds⟩).events = (loop (flushMaps ⟨[], w⟩) ds).events ∧
        (WatchDir ⟨stat0, walk0, ds⟩).st = (loop (flushMaps ⟨[], w⟩) ds).st) := by
  unfold WatchDir at h
  cases hs : isErrNotExist stat0 with
  | true => simp [hs] at h
  | false =>
    simp only [hs, Bool.false_eq_true, if_false] at h
    cases hw : WalkDir [] walk0 with
    | mk w r =>
      cases r with
      | some err => simp [hw] at h
      | none =>
        simp only [hw] at h
        have hnd : w.Nodup := by
          have := @WalkDir_nodup walk0 [] List.nodup_nil
          rwa [hw] at this
        refine ⟨w, rfl, rfl, ⟨rfl, hnd, fun p => ?_⟩, h, fun ds => ?_⟩
        · have := WalkDir_mem hw p
          simpa [flushMaps] using this
        · simp [WatchDir, hs, hw]

/-! ## Lemmas on the events of one iteration -/

theorem count_created_createdEvents (r : RangeOrder) (s : State) (p : String)
    (hnd : s.watchedFiles.Nodup) :
    (createdEvents r s).count ⟨.EventTypeFileCreate, p⟩ =
      if p ∈ s.watchedFiles ∧ p ∉ s.oldWatchedFiles then 1 else 0 := by
  have hinj : Function.Injective
      (fun curPath : String => ({ Typ := .EventTypeFileCreate, Path := curPath } : Event)) := by
    intro a b hab
    simpa using hab
  unfold createdEvents
  rw [List.count_map_of_injective _ _ hinj]
  by_cases ho : p ∈ s.oldWatchedFiles
  · rw [List.count_eq_zero_of_not_mem]
    · simp [ho]
    · simp [List.mem_filter, ho]
  · rw [List.count_filter (by simpa using ho), (r.perm s.watchedFiles).count_eq, List.count_eq_of_nodup hnd]
    simp [ho]

theorem count_removed_removedEvents (r : RangeOrder) (s : State) (p : String)
    (hnd : s.oldWatchedFiles.Nodup) :
    (removedEvents r s).count ⟨.EventTypeFileRemoved, p⟩ =
      if p ∈ s.oldWatchedFiles ∧ p ∉ s.watchedFiles then 1 else 0 := by
  have hinj : Function.Injective
      (fun curPath : String => ({ Typ := .EventTypeFileRemoved, Path := curPath } : Event)) := by
    intro a b hab
    simpa using hab
  unfold removedEvents
  rw [List.count_map_of_injective _ _ hinj]
  by_cases ho : p ∈ s.watchedFiles
  · rw [List.count_eq_zero_of_not_mem]
    · simp [ho]
    · simp [List.mem_filter, ho]
  · rw [List.count_filter (by simpa using ho), (r.perm s.oldWatchedFiles).count_eq, List.count_eq_of_nodup hnd]
    simp [ho]

theorem typ_createdEvents (r : RangeOrder) (s : State) :
    ∀ e ∈ createdEvents r s, e.Typ = .EventTypeFileCreate := by
  intro e he
  simp only [createdEvents, List.mem_map] at he
  obtain ⟨_, _, rfl⟩ := he
  rfl

theorem typ_removedEvents (r : RangeOrder) (s : State) :
    ∀ e ∈ removedEvents r s, e.Typ = .EventTypeFileRemoved := by
  intro e he
  simp only [removedEvents, List.mem_map] at he
  obtain ⟨_, _, rfl⟩ := he
  rfl

theorem count_created_removedEvents (r : RangeOrder) (s : State) (p : String) :
    (removedEvents r s).count ⟨.EventTypeFileCreate, p⟩ = 0 := by
  apply List.count_eq_zero_of_not_mem
  intro h
  have := typ_removedEvents r s _ h
  simp at this

theorem count_removed_createdEvents (r : RangeOrder) (s : State) (p : String) :
    (createdEvents r s).count ⟨.EventTypeFileRemoved, p⟩ = 0 := by
  apply List.count_eq_zero_of_not_mem
  intro h
  have := typ_createdEvents r s _ h
  simp at this

/-- The events of a completed iteration, seen from a whole run: the run was at
the top of the loop with the snapshot of the previous walk, the iteration was a
tick whose walk collected `w`, and it sent the two range loops over
`(oldWatchedFiles, w)`. -/
theorem WatchDir_cycle {stat0 : Option GoError} {walk0 : List WalkEntry}
    {cs : List Cycle} {c : Cycle}
    (h : (WatchDir ⟨stat0, walk0, cs ++ [c]⟩).ret = none) :
    ∃ old w r1 r2, (WatchDir ⟨stat0, walk0, cs⟩).ret = none ∧
      old.Nodup ∧ (∀ p, p ∈ old ↔ p ∈ nonDirPaths (lastWalk walk0 cs)) ∧
      w.Nodup ∧ (∀ p, p ∈ w ↔ p ∈ nonDirPaths c.walk) ∧
      (WatchDir ⟨stat0, walk0, cs ++ [c]⟩).events =
        (WatchDir ⟨stat0, walk0, cs⟩).events ++
          (createdEvents r1 ⟨old, w⟩ ++ removedEvents r2 ⟨old, w⟩) := by
  obtain ⟨w0, _, _, hsnap, hrun, hall⟩ := WatchDir_running h
  have hcs := loop_running_left _ cs [c] hrun
  obtain ⟨a1, a2, _⟩ := loop_append_running _ cs [c] hcs
  rw [a1] at hrun
  obtain ⟨evs, st, hb, _, he, _⟩ := loop_cons_running hrun
  have hs := loop_snapshot cs hsnap hcs
  obtain ⟨walk, r1, r2, w, _, hsel, hw, hevs, _⟩ := loopBody_next hb
  obtain ⟨h0, hnd, hmem⟩ := hs
  rw [h0] at hw
  have hwnd : w.Nodup := by
    have := @WalkDir_nodup walk [] List.nodup_nil
    rwa [hw] at this
  refine ⟨_, w, r1, r2, (hall cs).1.trans hcs, hnd, hmem, hwnd, fun p => ?_, ?_⟩
  · have := WalkDir_mem hw p
    simpa [Cycle.walk, hsel] using this
  · rw [(hall (cs ++ [c])).2.1, (hall cs).2.1, a2, he, hevs]
    simp [loop]

theorem createdEvents_eq_nil (r : RangeOrder) (s : State)
    (h : ∀ p, p ∈ s.watchedFiles → p ∈ s.oldWatchedFiles) : createdEvents r s = [] := by
  unfold createdEvents
  rw [List.map_eq_nil_iff, List.filter_eq_nil_iff]
  intro p hp
  have := h p ((r.perm s.watchedFiles).mem_iff.mp hp)
  simpa using this

theorem removedEvents_eq_nil (r : RangeOrder) (s : State)
    (h : ∀ p, p ∈ s.oldWatchedFiles → p ∈ s.watchedFiles) : removedEvents r s = [] := by
  unfold removedEvents
  rw [List.map_eq_nil_iff, List.filter_eq_nil_iff]
  intro p hp
  have := h p ((r.perm s.oldWatchedFiles).mem_iff.mp hp)
  simpa using this

theorem created_not_mem_createdEvents (r : RangeOrder) (s : State) (p : String)
    (h : p ∈ s.oldWatchedFiles) :
    (⟨.EventTypeFileCreate, p⟩ : Event) ∉ createdEvents r s := by
  simp [createdEvents, h]

theorem created_not_mem_removedEvents (r : RangeOrder) (s : State) (p : String) :
    (⟨.EventTypeFileCreate, p⟩ : Event) ∉ removedEvents r s := by
  intro h
  have := typ_removedEvents r s _ h
  simp at this

/-! ## Lemmas on the ways the loop returns -/

/-- When `ctx.Done()` fires the iteration returns `nil`. -/
theorem loopBody_ctxDone (s : State) (c : Cycle) (h : c.sel = .ctxDone) :
    loopBody s c = .ret none s 0 := by
  unfold loopBody
  cases isErrNotExist c.stat <;> simp [h]

/-- When `os.Stat` reports that the root is missing the iteration returns
`nil`. -/
theorem loopBody_notExist (s : State) (c : Cycle) (h : isErrNotExist c.stat = true) :
    loopBody s c = .ret none s 0 := by
  simp [loopBody, h]

/-- When the walk of a tick ends with an error the iteration returns it. -/
theorem loopBody_walk_error (s : State) (c : Cycle) (walk : List WalkEntry)
    (r1 r2 : RangeOrder) (w : List String) (err : GoError)
    (hstat : isErrNotExist c.stat = false) (hsel : c.sel = .tick walk r1 r2)
    (hw : WalkDir s.watchedFiles walk = (w, some err)) :
    loopBody s c = .ret (some err) { s with watchedFiles := w } 1 := by
  simp [loopBody, hstat, hsel, hw]

/-- A run that is at the top of the loop after `cs` and whose next iteration
returns: the result is that return value, no further event is sent, and the
iterations listed after it are not run. -/
theorem WatchDir_return {stat0 : Option GoError} {walk0 : List WalkEntry}
    {cs : List Cycle} (c : Cycle) (rest : List Cycle) (err : Option GoError)
    (st : State) (n : Nat)
    (hrun : (WatchDir ⟨stat0, walk0, cs⟩).ret = none)
    (hb : loopBody (WatchDir ⟨stat0, walk0, cs⟩).st c = .ret err st n) :
    (WatchDir ⟨stat0, walk0, cs ++ c :: rest⟩).ret = some err ∧
      (WatchDir ⟨stat0, walk0, cs ++ c :: rest⟩).events =
        (WatchDir ⟨stat0, walk0, cs⟩).events ∧
      (WatchDir ⟨stat0, walk0, cs ++ c :: rest⟩).st = st := by
  obtain ⟨w0, _, _, _, hl, hall⟩ := WatchDir_running hrun
  obtain ⟨a1, a2, a3⟩ := loop_append_running _ cs (c :: rest) hl
  rw [(hall cs).2.2] at hb
  rw [(hall _).1, (hall _).2.1, (hall _).2.2, (hall cs).2.1, a1, a2, a3]
  simp [loop_cons, hb]

/-- A periodic walk whose first failing callback invocation is `e` (failing
with `err`) makes `WatchDir` return `err`; the iteration sends nothing, leaves
`oldWatchedFiles` alone, and `watchedFiles` holds the files seen before `e`. -/
theorem abort_periodic {stat0 : Option GoError} {walk0 : List WalkEntry}
    {cs : List Cycle} (c : Cycle) (rest : List Cycle) (pre post : List WalkEntry)
    (e : WalkEntry) (r1 r2 : RangeOrder) (err : GoError)
    (hrun : (WatchDir ⟨stat0, walk0, cs⟩).ret = none)
    (hstat : isErrNotExist c.stat = false)
    (hsel : c.sel = .tick (pre ++ e :: post) r1 r2)
    (hpre : cleanWalk pre) (he : ∀ w, (watcherImpl w e).2 = some err) :
    (WatchDir ⟨stat0, walk0, cs ++ c :: rest⟩).ret = some (some err) ∧
      (WatchDir ⟨stat0, walk0, cs ++ c :: rest⟩).events =
        (WatchDir ⟨stat0, walk0, cs⟩).events ∧
      (WatchDir ⟨stat0, walk0, cs ++ c :: rest⟩).st.oldWatchedFiles =
        (WatchDir ⟨stat0, walk0, cs⟩).st.oldWatchedFiles ∧
      (∀ p, p ∈ (WatchDir ⟨stat0, walk0, cs ++ c :: rest⟩).st.watchedFiles ↔
        p ∈ nonDirPaths pre) := by
  obtain ⟨w0, _, _, hsnap, hl, hall⟩ := WatchDir_running hrun
  have hs := loop_snapshot cs hsnap hl
  rw [← (hall cs).2.2] at hs
  have hw := WalkDir_stop (WatchDir ⟨stat0, walk0, cs⟩).st.watchedFiles pre post e err hpre
    (he _)
  obtain ⟨b1, b2, b3⟩ := WatchDir_return c rest _ _ _ hrun
    (loopBody_walk_error _ c _ r1 r2 _ err hstat hsel hw)
  refine ⟨b1, b2, by rw [b3], fun p => ?_⟩
  rw [b3]
  have hc := WalkDir_clean (WatchDir ⟨stat0, walk0, cs⟩).st.watchedFiles hpre
  have := @WalkDir_mem pre (WatchDir ⟨stat0, walk0, cs⟩).st.watchedFiles
    (WalkDir (WatchDir ⟨stat0, walk0, cs⟩).st.watchedFiles pre).1
    (by rw [← hc]) p
  simpa [hs.1] using this

/-- An initial walk whose first failing callback invocation is `e` (failing
with `err`) makes `WatchDir` return `err` before the loop: nothing is sent, no
iteration is started, and `watchedFiles` holds the files seen before `e`. -/
theorem abort_initial (stat0 : Option GoError) (cs : List Cycle)
    (pre post : List WalkEntry) (e : WalkEntry) (err : GoError)
    (hstat : isErrNotExist stat0 = false)
    (hpre : cleanWalk pre) (he : ∀ w, (watcherImpl w e).2 = some err) :
    (WatchDir ⟨stat0, pre ++ e :: post, cs⟩).ret = some (some err) ∧
      (WatchDir ⟨stat0, pre ++ e :: post, cs⟩).events = [] ∧
      (WatchDir ⟨stat0, pre ++ e :: post, cs⟩).iters = 0 ∧
      (∀ p, p ∈ (WatchDir ⟨stat0, pre ++ e :: post, cs⟩).st.watchedFiles ↔
        p ∈ nonDirPaths pre) := by
  have hw := WalkDir_stop [] pre post e err hpre (he _)
  have hc := WalkDir_clean [] hpre
  have hm := @WalkDir_mem pre [] (WalkDir [] pre).1 (by rw [← hc])
  simp only [WatchDir, hstat, hw, Bool.false_eq_true, if_false, true_and]
  intro p
  simpa using hm p

theorem watcherImpl_fileReadErr (w : List String) (e : WalkEntry) (err : GoError)
    (h : e.fileReadErr = some err) : (watcherImpl w e).2 = some err := by
  simp [watcherImpl, h]

theorem watcherImpl_ctxErr (w : List String) (e : WalkEntry) (err : GoError)
    (hf : e.fileReadErr = none) (h : e.ctxErr = some err) :
    (watcherImpl w e).2 = some err := by
  simp [watcherImpl, hf, h]

/-- A file that is in `oldWatchedFiles` at the top of the loop and is yielded as
a non-directory entry by every walk is never reported as created. -/
theorem loop_no_created (s : State) (cs : List Cycle) (p : String)
    (h0 : s.watchedFiles = []) (hp : p ∈ s.oldWatchedFiles)
    (hstay : ∀ c ∈ cs, ∀ walk r1 r2, c.sel = .tick walk r1 r2 → p ∈ nonDirPaths walk) :
    (⟨.EventTypeFileCreate, p⟩ : Event) ∉ (loop s cs).events := by
  induction cs generalizing s with
  | nil => simp [loop]
  | cons c cs ih =>
    rw [loop_cons]
    cases hb : loopBody s c with
    | ret err st n => simp
    | next evs st =>
      obtain ⟨walk, r1, r2, w, _, hsel, hw, hevs, hst⟩ := loopBody_next hb
      rw [h0] at hw
      have hpw : p ∈ w := (WalkDir_mem hw p).2
        (Or.inr (hstay c (List.mem_cons_self c cs) walk r1 r2 hsel))
      have hih := ih st (by simp [hst, flushMaps]) (by simpa [hst, flushMaps] using hpw)
        (fun d hd => hstay d (List.mem_cons_of_mem c hd))
      simp only [List.mem_append, not_or]
      refine ⟨?_, hih⟩
      rw [hevs, List.mem_append, not_or]
      exact ⟨created_not_mem_createdEvents r1 _ p hp, created_not_mem_removedEvents r2 _ p⟩

/-! ## C1: missing root -/

/-- C1: when the first `os.Stat` reports not-exist, `WatchDir` returns
`ErrDirNotExist`, having called `filepath.WalkDir` zero times, started zero
loop iterations and sent zero events, whatever else the environment holds. -/
theorem watchDir_missing_root (env : Env) (h : isErrNotExist env.stat0 = true) :
    (WatchDir env).ret = some (some .ErrDirNotExist) ∧ (WatchDir env).events = [] ∧
      (WatchDir env).walks = 0 ∧ (WatchDir env).iters = 0 := by
  simp [WatchDir, h]

theorem watchDir_missing_root_witness :
    isErrNotExist (some GoError.notExist) = true ∧
      (WatchDir ⟨some .notExist, walkA, [tickCycle walkAB]⟩).ret = some (some .ErrDirNotExist) ∧
      (WatchDir ⟨some .notExist, walkA, [tickCycle walkAB]⟩).events = [] ∧
      (WatchDir ⟨some .notExist, walkA, [tickCycle walkAB]⟩).walks = 0 ∧
      (WatchDir ⟨some .notExist, walkA, [tickCycle walkAB]⟩).iters = 0 :=
  ⟨rfl, watchDir_missing_root ⟨some .notExist, walkA, [tickCycle walkAB]⟩ rfl⟩

/-! ## C2: cancellation -/

/-- C2 (code evaluated at the failing inputs): the context is cancelled after
`WatchDir` has started.  When the cancellation is first observed by the
per-entry check inside a walk, `WatchDir` returns the context error
`context.Canceled` and not `nil`, in the initial walk and in a periodic walk
alike.  When the same cancellation is observed by the `select` between cycles,
the same run returns `nil`. -/
theorem cancel_mid_walk_returns_error :
    (WatchDir ⟨none, walkCancelled, []⟩).ret = some (some .canceled) ∧
      (WatchDir ⟨none, walkCancelled, []⟩).ret ≠ some none ∧
      (WatchDir ⟨none, walkA, [tickCycle walkCancelled]⟩).ret = some (some .canceled) ∧
      (WatchDir ⟨none, walkA, [tickCycle walkCancelled]⟩).ret ≠ some none ∧
      (WatchDir ⟨none, walkA, [doneCycle]⟩).ret = some none := by
  decide

/-- What the code does on cancellation, for a run that is at the top of the
loop after the iterations `cs`: (1) if `ctx.Done()` fires in the next `select`,
`WatchDir` returns `nil` and sends nothing more; (2) if the ticker fires and the
per-entry check of the walk is the first to fail, seeing `ctx.Err() = err`,
`WatchDir` returns `err` and sends nothing more; (3) if the per-entry check of
the initial walk is the first to fail, seeing `ctx.Err() = err`, `WatchDir`
returns `err` and sends nothing. -/
theorem cancel_outcome (stat0 : Option GoError) (walk0 : List WalkEntry)
    (cs : List Cycle) (c : Cycle) (rest : List Cycle) :
    ((WatchDir ⟨stat0, walk0, cs⟩).ret = none → c.sel = .ctxDone →
      (WatchDir ⟨stat0, walk0, cs ++ c :: rest⟩).ret = some none ∧
      (WatchDir ⟨stat0, walk0, cs ++ c :: rest⟩).events =
        (WatchDir ⟨stat0, walk0, cs⟩).events) ∧
    (∀ pre e post r1 r2 err, (WatchDir ⟨stat0, walk0, cs⟩).ret = none →
      isErrNotExist c.stat = false → c.sel = .tick (pre ++ e :: post) r1 r2 →
      cleanWalk pre → e.fileReadErr = none → e.ctxErr = some err →
      (WatchDir ⟨stat0, walk0, cs ++ c :: rest⟩).ret = some (some err) ∧
      (WatchDir ⟨stat0, walk0, cs ++ c :: rest⟩).events =
        (WatchDir ⟨stat0, walk0, cs⟩).events) ∧
    (∀ pre e post err, isErrNotExist stat0 = false →
      cleanWalk pre → e.fileReadErr = none → e.ctxErr = some err →
      (WatchDir ⟨stat0, pre ++ e :: post, cs⟩).ret = some (some err) ∧
      (WatchDir ⟨stat0, pre ++ e :: post, cs⟩).events = []) := by
  refine ⟨fun hrun hsel => ?_, fun pre e post r1 r2 err hrun hstat hsel hpre hf hc => ?_,
    fun pre e post err hstat hpre hf hc => ?_⟩
  · obtain ⟨b1, b2, _⟩ := WatchDir_return c rest _ _ _ hrun (loopBody_ctxDone _ c hsel)
    exact ⟨b1, b2⟩
  · obtain ⟨b1, b2, _⟩ := abort_periodic c rest pre post e r1 r2 err hrun hstat hsel hpre
      (fun w => watcherImpl_ctxErr w e err hf hc)
    exact ⟨b1, b2⟩
  · obtain ⟨b1, b2, _⟩ := abort_initial stat0 cs pre post e err hstat hpre
      (fun w => watcherImpl_ctxErr w e err hf hc)
    exact ⟨b1, b2⟩

theorem cancel_outcome_witness :
    ((WatchDir ⟨none, walkA, [tickCycle walkAB]⟩).ret = none ∧ doneCycle.sel = .ctxDone ∧
      (WatchDir ⟨none, walkA, [tickCycle walkAB] ++ doneCycle :: [tickCycle walkB]⟩).ret
        = some none ∧
      (WatchDir ⟨none, walkA, [tickCycle walkAB] ++ doneCycle :: [tickCycle walkB]⟩).events
        = (WatchDir ⟨none, walkA, [tickCycle walkAB]⟩).events) ∧
    ((WatchDir ⟨none, walkA, [tickCycle walkAB]⟩).ret = none ∧
      (WatchDir ⟨none, walkA, [tickCycle walkAB] ++ tickCycle walkCancelled :: []⟩).ret
        = some (some .canceled) ∧
      (WatchDir ⟨none, walkA, [tickCycle walkAB] ++ tickCycle walkCancelled :: []⟩).events
        = (WatchDir ⟨none, walkA, [tickCycle walkAB]⟩).events) ∧
    ((WatchDir ⟨none, [dir "root", file "root/a.txt"] ++
        ⟨"root/b.txt", false, none, some .canceled⟩ :: [], [tickCycle walkAB]⟩).ret
        = some (some .canceled) ∧
      (WatchDir ⟨none, [dir "root", file "root/a.txt"] ++
        ⟨"root/b.txt", false, none, some .canceled⟩ :: [], [tickCycle walkAB]⟩).events = []) :=
  ⟨⟨by decide, rfl,
      (cancel_outcome none walkA [tickCycle walkAB] doneCycle [tickCycle walkB]).1
        (by decide) rfl⟩,
    ⟨by decide,
      (cancel_outcome none walkA [tickCycle walkAB] (tickCycle walkCancelled) []).2.1
        [dir "root", file "root/a.txt"] ⟨"root/b.txt", false, none, some .canceled⟩ []
        RangeOrder.stored RangeOrder.reversed .canceled (by decide) rfl rfl
        (by decide) rfl rfl⟩,
    (cancel_outcome none walkA [tickCycle walkAB] doneCycle []).2.2
      [dir "root", file "root/a.txt"] ⟨"root/b.txt", false, none, some .canceled⟩ []
      .canceled rfl (by decide) rfl rfl⟩

/-! ## C3: root removed while the loop waits -/

/-- C3 (code evaluated at the failing input): the root exists at call time, at
the initial walk and at the `os.Stat` at the top of the first iteration; it is
removed while `select` waits; the ticker fires and the walk reports the missing
root to the callback.  `WatchDir` returns that error, not `nil`.  Had the
removal been seen by the `os.Stat` at the top of the iteration, the same run
would have returned `nil`. -/
theorem removed_root_walk_error :
    (WatchDir ⟨none, walkA, [tickCycle walkMissingRoot]⟩).ret = some (some .notExist) ∧
      (WatchDir ⟨none, walkA, [tickCycle walkMissingRoot]⟩).ret ≠ some none ∧
      (WatchDir ⟨none, walkA,
        [⟨some .notExist, .tick walkMissingRoot RangeOrder.stored RangeOrder.reversed⟩]⟩).ret
        = some none := by
  decide

/-! ## C4, C5, C8: the events of a completed cycle -/

/-- C4: in a run whose iteration `c` (after the iterations `cs`) completes, the
events sent in that iteration contain a `file_created` event for path `p`
exactly once when the walk of `c` yielded `p` as a non-directory entry and the
previous completed walk did not, and zero times otherwise. -/
theorem created_events_exact (stat0 : Option GoError) (walk0 : List WalkEntry)
    (cs : List Cycle) (c : Cycle)
    (h : (WatchDir ⟨stat0, walk0, cs ++ [c]⟩).ret = none) :
    ∃ evs, (WatchDir ⟨stat0, walk0, cs ++ [c]⟩).events =
        (WatchDir ⟨stat0, walk0, cs⟩).events ++ evs ∧
      ∀ p, evs.count ⟨.EventTypeFileCreate, p⟩ =
        if p ∈ nonDirPaths c.walk ∧ p ∉ nonDirPaths (lastWalk walk0 cs) then 1 else 0 := by
  obtain ⟨old, w, r1, r2, _, _, hold, hwnd, hw, hev⟩ := WatchDir_cycle h
  refine ⟨_, hev, fun p => ?_⟩
  rw [List.count_append, count_created_createdEvents r1 ⟨old, w⟩ p hwnd,
    count_created_removedEvents]
  simp only [hw p, hold p, Nat.add_zero]

theorem created_events_exact_witness :
    (WatchDir ⟨none, walkA, [] ++ [tickCycle walkAB]⟩).ret = none ∧
    ∃ evs, (WatchDir ⟨none, walkA, [] ++ [tickCycle walkAB]⟩).events =
        (WatchDir ⟨none, walkA, []⟩).events ++ evs ∧
      (∀ p, evs.count ⟨.EventTypeFileCreate, p⟩ =
        if p ∈ nonDirPaths (tickCycle walkAB).walk ∧
          p ∉ nonDirPaths (lastWalk walkA []) then 1 else 0) ∧
      evs.count ⟨.EventTypeFileCreate, "root/b.txt"⟩ = 1 ∧
      evs.count ⟨.EventTypeFileCreate, "root/a.txt"⟩ = 0 ∧
      evs.count ⟨.EventTypeFileCreate, "root"⟩ = 0 := by
  refine ⟨by decide, ?_⟩
  obtain ⟨evs, h1, h2⟩ := created_events_exact none walkA [] (tickCycle walkAB) (by decide)
  refine ⟨evs, h1, h2, ?_, ?_, ?_⟩
  · rw [h2]; decide
  · rw [h2]; decide
  · rw [h2]; decide

/-- C5: in a run whose iteration `c` (after the iterations `cs`) completes, the
events sent in that iteration contain a `file_removed` event for path `p`
exactly once when the previous completed walk yielded `p` as a non-directory
entry and the walk of `c` did not, and zero times otherwise. -/
theorem removed_events_exact (stat0 : Option GoError) (walk0 : List WalkEntry)
    (cs : List Cycle) (c : Cycle)
    (h : (WatchDir ⟨stat0, walk0, cs ++ [c]⟩).ret = none) :
    ∃ evs, (WatchDir ⟨stat0, walk0, cs ++ [c]⟩).events =
        (WatchDir ⟨stat0, walk0, cs⟩).events ++ evs ∧
      ∀ p, evs.count ⟨.EventTypeFileRemoved, p⟩ =
        if p ∈ nonDirPaths (lastWalk walk0 cs) ∧ p ∉ nonDirPaths c.walk then 1 else 0 := by
  obtain ⟨old, w, r1, r2, _, holdnd, hold, _, hw, hev⟩ := WatchDir_cycle h
  refine ⟨_, hev, fun p => ?_⟩
  rw [List.count_append, count_removed_removedEvents r2 ⟨old, w⟩ p holdnd,
    count_removed_createdEvents]
  simp only [hw p, hold p, Nat.zero_add]

theorem removed_events_exact_witness :
    (WatchDir ⟨none, walkA, [tickCycle walkAB] ++ [tickCycle walkB]⟩).ret = none ∧
    ∃ evs, (WatchDir ⟨none, walkA, [tickCycle walkAB] ++ [tickCycle walkB]⟩).events =
        (WatchDir ⟨none, walkA, [tickCycle walkAB]⟩).events ++ evs ∧
      ∀ p, evs.count ⟨.EventTypeFileRemoved, p⟩ =
        if p ∈ nonDirPaths (lastWalk walkA [tickCycle walkAB]) ∧
          p ∉ nonDirPaths (tickCycle walkB).walk then 1 else 0 :=
  ⟨by decide, removed_events_exact none walkA [tickCycle walkAB] (tickCycle walkB) (by decide)⟩

/-- C8: in a run whose iteration `c` (after the iterations `cs`) completes, the
events sent in that iteration are a block of `file_created` events followed by
a block of `file_removed` events. -/
theorem created_before_removed (stat0 : Option GoError) (walk0 : List WalkEntry)
    (cs : List Cycle) (c : Cycle)
    (h : (WatchDir ⟨stat0, walk0, cs ++ [c]⟩).ret = none) :
    ∃ created removed, (WatchDir ⟨stat0, walk0, cs ++ [c]⟩).events =
        (WatchDir ⟨stat0, walk0, cs⟩).events ++ (created ++ removed) ∧
      (∀ e ∈ created, e.Typ = .EventTypeFileCreate) ∧
      (∀ e ∈ removed, e.Typ = .EventTypeFileRemoved) := by
  obtain ⟨old, w, r1, r2, _, _, _, _, _, hev⟩ := WatchDir_cycle h
  exact ⟨_, _, hev, typ_createdEvents r1 _, typ_removedEvents r2 _⟩

theorem created_before_removed_witness :
    (WatchDir ⟨none, walkA, [] ++ [tickCycle walkB]⟩).ret = none ∧
    ∃ created removed, (WatchDir ⟨none, walkA, [] ++ [tickCycle walkB]⟩).events =
        (WatchDir ⟨none, walkA, []⟩).events ++ (created ++ removed) ∧
      (∀ e ∈ created, e.Typ = .EventTypeFileCreate) ∧
      (∀ e ∈ removed, e.Typ = .EventTypeFileRemoved) :=
  ⟨by decide, created_before_removed none walkA [] (tickCycle walkB) (by decide)⟩

/-! ## C9: steady state -/

/-- C9: in a run that is still in the loop after the iterations `cs ++ more`,
if the walk of every iteration of `more` yields the same set of non-directory
paths as the completed walk before it, then no event is sent during `more`.
With `more = [c]` this is one unchanged cycle; `more` may have any length. -/
theorem steady_state_silent (stat0 : Option GoError) (walk0 : List WalkEntry)
    (cs more : List Cycle)
    (hrun : (WatchDir ⟨stat0, walk0, cs ++ more⟩).ret = none)
    (hsame : ∀ before c after, more = before ++ c :: after →
      sameFiles c.walk (lastWalk walk0 (cs ++ before))) :
    (WatchDir ⟨stat0, walk0, cs ++ more⟩).events = (WatchDir ⟨stat0, walk0, cs⟩).events := by
  induction more using List.reverseRecOn with
  | nil => simp
  | append_singleton init c ih =>
    have hrun1 : (WatchDir ⟨stat0, walk0, (cs ++ init) ++ [c]⟩).ret = none := by
      rwa [List.append_assoc]
    obtain ⟨old, w, r1, r2, hprev, _, hold, _, hw, hev⟩ := WatchDir_cycle hrun1
    have hs := hsame init c [] rfl
    have hcr : createdEvents r1 ⟨old, w⟩ = [] :=
      createdEvents_eq_nil r1 _ (fun p hp => (hold p).2 ((hs p).1 ((hw p).1 hp)))
    have hrm : removedEvents r2 ⟨old, w⟩ = [] :=
      removedEvents_eq_nil r2 _ (fun p hp => (hw p).2 ((hs p).2 ((hold p).1 hp)))
    rw [← List.append_assoc, hev, hcr, hrm,
      ih hprev (fun before d after hd => hsame before d (after ++ [c]) (by simp [hd]))]
    simp

theorem steady_state_silent_witness :
    (WatchDir ⟨none, walkA, [tickCycle walkAB] ++ [tickCycle walkBA, tickCycle walkAB]⟩).ret
      = none ∧
    (WatchDir ⟨none, walkA, [tickCycle walkAB] ++ [tickCycle walkBA, tickCycle walkAB]⟩).events
      = (WatchDir ⟨none, walkA, [tickCycle walkAB]⟩).events :=
  ⟨by decide,
    steady_state_silent none walkA [tickCycle walkAB] [tickCycle walkBA, tickCycle walkAB]
      (by decide)
      (by
        intro before c after h
        rcases before with _ | ⟨x, before⟩
        · simp only [List.nil_append, List.cons.injEq] at h
          obtain ⟨rfl, _⟩ := h
          decide
        · rcases before with _ | ⟨y, before⟩
          · simp only [List.cons_append, List.nil_append, List.cons.injEq] at h
            obtain ⟨rfl, rfl, _⟩ := h
            decide
          · simp at h)⟩

/-! ## C10: snapshot invariant -/

/-- C10: whenever a run is at the top of a loop iteration (after the initial
rotation and the iterations `cs`, all completed), `watchedFiles` is empty and
`oldWatchedFiles` is duplicate-free and holds exactly the paths that the most
recent completed walk yielded as non-directory entries: nothing from a
directory entry and nothing from an earlier walk. -/
theorem snapshot_invariant (stat0 : Option GoError) (walk0 : List WalkEntry)
    (cs : List Cycle) (h : (WatchDir ⟨stat0, walk0, cs⟩).ret = none) :
    (WatchDir ⟨stat0, walk0, cs⟩).st.watchedFiles = [] ∧
      (WatchDir ⟨stat0, walk0, cs⟩).st.oldWatchedFiles.Nodup ∧
      (∀ p, p ∈ (WatchDir ⟨stat0, walk0, cs⟩).st.oldWatchedFiles ↔
        p ∈ nonDirPaths (lastWalk walk0 cs)) ∧
      (∀ p ∈ (WatchDir ⟨stat0, walk0, cs⟩).st.oldWatchedFiles,
        ∃ e ∈ lastWalk walk0 cs, e.curPath = p ∧ e.isDir = false) := by
  obtain ⟨w0, _, _, hsnap, hl, hall⟩ := WatchDir_running h
  have hs := loop_snapshot cs hsnap hl
  rw [← (hall cs).2.2] at hs
  refine ⟨hs.1, hs.2.1, hs.2.2, fun p hp => ?_⟩
  have := (hs.2.2 p).1 hp
  simp only [nonDirPaths, List.mem_map, List.mem_filter, Bool.not_eq_true'] at this
  obtain ⟨e, ⟨he, hd⟩, rfl⟩ := this
  exact ⟨e, he, rfl, hd⟩

theorem snapshot_invariant_witness :
    (WatchDir ⟨none, walkA, [tickCycle walkAB, tickCycle walkB]⟩).ret = none ∧
    (WatchDir ⟨none, walkA, [tickCycle walkAB, tickCycle walkB]⟩).st.watchedFiles = [] ∧
      (WatchDir ⟨none, walkA, [tickCycle walkAB, tickCycle walkB]⟩).st.oldWatchedFiles.Nodup ∧
      (∀ p, p ∈ (WatchDir ⟨none, walkA, [tickCycle walkAB, tickCycle walkB]⟩).st.oldWatchedFiles ↔
        p ∈ nonDirPaths (lastWalk walkA [tickCycle walkAB, tickCycle walkB])) ∧
      (∀ p ∈ (WatchDir ⟨none, walkA, [tickCycle walkAB, tickCycle walkB]⟩).st.oldWatchedFiles,
        ∃ e ∈ lastWalk walkA [tickCycle walkAB, tickCycle walkB],
          e.curPath = p ∧ e.isDir = false) :=
  ⟨by decide, snapshot_invariant none walkA [tickCycle walkAB, tickCycle walkB] (by decide)⟩

/-! ## C6: the initial scan -/

/-- C6: (1) before the first tick no event has been sent, whatever the initial
tree; (2) if the root exists and the initial walk is clean, the run reaches the
loop with `watchedFiles` empty and `oldWatchedFiles` holding exactly the
non-directory paths of the initial walk; (3) a path that the initial walk
yielded as a non-directory entry and that every later walk yields as a
non-directory entry is never the path of a `file_created` event. -/
theorem initial_scan_silent (stat0 : Option GoError) (walk0 : List WalkEntry) :
    (WatchDir ⟨stat0, walk0, []⟩).events = [] ∧
    (isErrNotExist stat0 = false → cleanWalk walk0 →
      (WatchDir ⟨stat0, walk0, []⟩).ret = none ∧
      (WatchDir ⟨stat0, walk0, []⟩).st.watchedFiles = [] ∧
      ∀ p, p ∈ (WatchDir ⟨stat0, walk0, []⟩).st.oldWatchedFiles ↔ p ∈ nonDirPaths walk0) ∧
    (∀ cs p, p ∈ nonDirPaths walk0 →
      (∀ c ∈ cs, ∀ walk r1 r2, c.sel = .tick walk r1 r2 → p ∈ nonDirPaths walk) →
      (⟨.EventTypeFileCreate, p⟩ : Event) ∉ (WatchDir ⟨stat0, walk0, cs⟩).events) := by
  refine ⟨?_, fun hstat hclean => ?_, fun cs p hp hstay => ?_⟩
  · unfold WatchDir
    cases isErrNotExist stat0
    · cases hw : WalkDir [] walk0 with
      | mk w r => cases r <;> simp [loop]
    · simp
  · have hc := WalkDir_clean [] hclean
    have hw : WalkDir [] walk0 = ((WalkDir [] walk0).1, none) := by rw [← hc]
    have hm := WalkDir_mem hw
    have hret : (WatchDir ⟨stat0, walk0, []⟩).ret = none := by
      unfold WatchDir
      simp only [hstat, Bool.false_eq_true, if_false]
      rw [hw]
      simp [loop]
    obtain ⟨w0, _, _, hsnap, hl, hall⟩ := WatchDir_running hret
    have hs := loop_snapshot [] hsnap hl
    rw [← (hall []).2.2] at hs
    exact ⟨hret, hs.1, hs.2.2⟩
  · unfold WatchDir
    cases isErrNotExist stat0
    · cases hw : WalkDir [] walk0 with
      | mk w r =>
        cases r with
        | some err => simp
        | none =>
          simp only [Bool.false_eq_true, if_false]
          exact loop_no_created _ cs p (by simp [flushMaps])
            (by simpa [flushMaps] using (WalkDir_mem hw p).2 (Or.inr hp)) hstay
    · simp

theorem initial_scan_silent_witness :
    (WatchDir ⟨none, walkAB, []⟩).events = [] ∧
    ((WatchDir ⟨none, walkAB, []⟩).ret = none ∧
      (WatchDir ⟨none, walkAB, []⟩).st.watchedFiles = [] ∧
      ∀ p, p ∈ (WatchDir ⟨none, walkAB, []⟩).st.oldWatchedFiles ↔ p ∈ nonDirPaths walkAB) ∧
    (⟨.EventTypeFileCreate, "root/b.txt"⟩ : Event) ∉
      (WatchDir ⟨none, walkAB, [tickCycle walkB, tickCycle walkBA]⟩).events :=
  ⟨(initial_scan_silent none walkAB).1,
    (initial_scan_silent none walkAB).2.1 rfl (by decide),
    (initial_scan_silent none walkAB).2.2 [tickCycle walkB, tickCycle walkBA] "root/b.txt"
      (by decide)
      (by
        intro c hc walk r1 r2 hsel
        simp only [List.mem_cons, List.mem_singleton, List.not_mem_nil, or_false] at hc
        rcases hc with rfl | rfl
        · simp only [tickCycle, SelectCase.tick.injEq] at hsel
          obtain ⟨rfl, _⟩ := hsel
          decide
        · simp only [tickCycle, SelectCase.tick.injEq] at hsel
          obtain ⟨rfl, _⟩ := hsel
          decide)⟩

/-! ## C7: a walk error aborts the cycle -/

/-- C7: let `e` be the first callback invocation of a walk that carries a read
error `err`, all invocations before it being clean (no read error, no
cancellation).  (1) If the walk is a periodic one, `WatchDir` returns `err`, no
event is sent for that iteration, `oldWatchedFiles` is left as it was and
`watchedFiles` holds only what was collected before `e`.  (2) If the walk is
the initial one, `WatchDir` returns `err`, no event is sent, no loop iteration
is started and `watchedFiles` holds only what was collected before `e`. -/
theorem walk_error_aborts (stat0 : Option GoError) (walk0 : List WalkEntry)
    (cs : List Cycle) (c : Cycle) (rest : List Cycle) (pre post : List WalkEntry)
    (e : WalkEntry) (err : GoError)
    (hpre : cleanWalk pre) (herr : e.fileReadErr = some err) :
    (∀ r1 r2, (WatchDir ⟨stat0, walk0, cs⟩).ret = none → isErrNotExist c.stat = false →
      c.sel = .tick (pre ++ e :: post) r1 r2 →
      (WatchDir ⟨stat0, walk0, cs ++ c :: rest⟩).ret = some (some err) ∧
      (WatchDir ⟨stat0, walk0, cs ++ c :: rest⟩).events =
        (WatchDir ⟨stat0, walk0, cs⟩).events ∧
      (WatchDir ⟨stat0, walk0, cs ++ c :: rest⟩).st.oldWatchedFiles =
        (WatchDir ⟨stat0, walk0, cs⟩).st.oldWatchedFiles ∧
      (∀ p, p ∈ (WatchDir ⟨stat0, walk0, cs ++ c :: rest⟩).st.watchedFiles ↔
        p ∈ nonDirPaths pre)) ∧
    (isErrNotExist stat0 = false →
      (WatchDir ⟨stat0, pre ++ e :: post, cs⟩).ret = some (some err) ∧
      (WatchDir ⟨stat0, pre ++ e :: post, cs⟩).events = [] ∧
      (WatchDir ⟨stat0, pre ++ e :: post, cs⟩).iters = 0 ∧
      (∀ p, p ∈ (WatchDir ⟨stat0, pre ++ e :: post, cs⟩).st.watchedFiles ↔
        p ∈ nonDirPaths pre)) :=
  ⟨fun r1 r2 hrun hstat hsel =>
      abort_periodic c rest pre post e r1 r2 err hrun hstat hsel hpre
        (fun w => watcherImpl_fileReadErr w e err herr),
    fun hstat =>
      abort_initial stat0 cs pre post e err hstat hpre
        (fun w => watcherImpl_fileReadErr w e err herr)⟩

theorem walk_error_aborts_witness :
    (cleanWalk [dir "root", file "root/b.txt", dir "root/sub"] ∧
      (WatchDir ⟨none, walkA, [tickCycle walkAB]⟩).ret = none ∧
      (WatchDir ⟨none, walkA,
        [tickCycle walkAB] ++ tickCycle walkUnreadable :: [tickCycle walkB]⟩).ret
        = some (some (.other "permission denied")) ∧
      (WatchDir ⟨none, walkA,
        [tickCycle walkAB] ++ tickCycle walkUnreadable :: [tickCycle walkB]⟩).events
        = (WatchDir ⟨none, walkA, [tickCycle walkAB]⟩).events) ∧
    ((WatchDir ⟨none, [dir "root", file "root/b.txt", dir "root/sub"] ++
        ⟨"root/sub", true, some (.other "permission denied"), none⟩ :: [file "root/z.txt"],
        [tickCycle walkAB]⟩).ret = some (some (.other "permission denied")) ∧
      (WatchDir ⟨none, [dir "root", file "root/b.txt", dir "root/sub"] ++
        ⟨"root/sub", true, some (.other "permission denied"), none⟩ :: [file "root/z.txt"],
        [tickCycle walkAB]⟩).events = []) :=
  ⟨⟨by decide, by decide,
      ((walk_error_aborts none walkA [tickCycle walkAB] (tickCycle walkUnreadable)
        [tickCycle walkB] [dir "root", file "root/b.txt", dir "root/sub"] [file "root/z.txt"]
        ⟨"root/sub", true, some (.other "permission denied"), none⟩
        (.other "permission denied") (by decide) rfl).1
        RangeOrder.stored RangeOrder.reversed (by decide) rfl rfl).1,
      ((walk_error_aborts none walkA [tickCycle walkAB] (tickCycle walkUnreadable)
        [tickCycle walkB] [dir "root", file "root/b.txt", dir "root/sub"] [file "root/z.txt"]
        ⟨"root/sub", true, some (.other "permission denied"), none⟩
        (.other "permission denied") (by decide) rfl).1
        RangeOrder.stored RangeOrder.reversed (by decide) rfl rfl).2.1⟩,
    ((walk_error_aborts none walkA [tickCycle walkAB] (tickCycle walkUnreadable)
        [tickCycle walkB] [dir "root", file "root/b.txt", dir "root/sub"] [file "root/z.txt"]
        ⟨"root/sub", true, some (.other "permission denied"), none⟩
        (.other "permission denied") (by decide) rfl).2 rfl).1,
    ((walk_error_aborts none walkA [tickCycle walkAB] (tickCycle walkUnreadable)
        [tickCycle walkB] [dir "root", file "root/b.txt", dir "root/sub"] [file "root/z.txt"]
        ⟨"root/sub", true, some (.other "permission denied"), none⟩
        (.other "permission denied") (by decide) rfl).2 rfl).2.1⟩

end Watcher
